import Mathlib

/-!
Shallow embedding of the `@heap-code/concurrency-synchronization` package:
the counting `Semaphore` (src/semaphore/semaphore.ts), the `Mutex` built on it
(src/mutex/mutex.ts, rev. of part_007 with the corrected `isLocked`), and the
`ProducerConsumer` queue (whose implementation is stubbed in the sources and is
therefore modelled from the spec).

The JavaScript runtime is single-threaded and cooperative: every method body
runs atomically, and the only asynchrony is (a) promise settlement and (b) the
`setTimeout` callback scheduled by `tryAcquire`.  We therefore model the
semaphore as a pure state machine.  Queue items are JS objects shared by
reference between the queue and the timeout closure, so the state carries an
explicit heap (`items`, an append-only association list from item id to item
state) while the queue holds item ids.  The `setTimeout` callback of
`tryAcquire` is embedded as the explicit step `fireTimeout`, taking the data
captured by the closure (`TimerCtx`).  A promise settles at most once; each
item records its settlement (`Option SettleKind`), and re-settling is a no-op,
mirroring promise semantics.
-/

namespace CSync

/-- How a queue item's promise settled: resolved (all unit resolvers called),
rejected by the `tryAcquire` timeout, or rejected by `interrupt`. -/
inductive SettleKind where
  | ok
  | timedOut
  | interrupted
deriving Repr, DecidableEq

/-- Settle a promise: a promise settles only once, so an already-settled
promise keeps its first outcome. -/
def settleKind (old : Option SettleKind) (k : SettleKind) : Option SettleKind :=
  match old with
  | none => some k
  | some x => some x

/-- One `QueueItem` of `semaphore.ts`: `outstanding` is `resolvers.length`
(the number of per-unit resolver callbacks not yet spliced off), and `settled`
is the settlement state of the promise returned by `acquireLock`. -/
structure QueueItem where
  outstanding : Nat
  settled : Option SettleKind
deriving Repr, DecidableEq

/-- The synchronous error kinds of the semaphore:
`SemaphoreInvalidPermitsException` and `ConcurrencyInvalidTimeoutException`. -/
inductive SemError where
  | invalidPermits
  | invalidTimeout
deriving Repr, DecidableEq

/-- The state of one `Semaphore` object: the permit counter (`this.permits`),
the queue of item ids (`this.queue`, which in JS holds the item objects by
reference), the heap of all item objects ever created, and the next fresh
item id. -/
structure SemState where
  permits : Nat
  queue : List Nat
  items : List (Nat × QueueItem)
  nextId : Nat
deriving Repr, DecidableEq

/-- Dereference an item id in the heap. -/
def lookupItem (its : List (Nat × QueueItem)) (eid : Nat) : Option QueueItem :=
  (its.find? (fun p => p.1 == eid)).map Prod.snd

/-- Mutate the item object with id `eid` (reference update: every occurrence
of the id sees the new value; ids are unique by construction). -/
def updateItem (its : List (Nat × QueueItem)) (eid : Nat) (f : QueueItem → QueueItem) :
    List (Nat × QueueItem) :=
  its.map (fun p => if p.1 = eid then (p.1, f p.2) else p)

/-- `findIndex` + `splice(index, 1)`: remove the first occurrence of `x`, if
any (`if (index >= 0)`). -/
def removeFirst (l : List Nat) (x : Nat) : List Nat :=
  match l with
  | [] => []
  | a :: as => if a = x then as else a :: removeFirst as x

/-- Getter `permitsAvailable` (semaphore.ts line 41). -/
def SemState.permitsAvailable (s : SemState) : Nat :=
  s.permits

/-- Getter `permitsRequired` (semaphore.ts line 48):
`this.queue.reduce((total, { resolvers }) => total + resolvers.length, 0)`. -/
def SemState.permitsRequired (s : SemState) : Nat :=
  (s.queue.map (fun eid => ((lookupItem s.items eid).map QueueItem.outstanding).getD 0)).sum

/-- Getter `queueLength` (semaphore.ts line 55). -/
def SemState.queueLength (s : SemState) : Nat :=
  s.queue.length

/-- A fresh semaphore state holding `p` permits. -/
def semInit (p : Nat) : SemState :=
  ⟨p, [], [], 0⟩

/-- The `Semaphore` constructor (semaphore.ts line 65): negative initial
permits throw `SemaphoreInvalidPermitsException`. -/
def mkSemaphore (permits : Int) : Except SemError SemState :=
  if permits < 0 then .error SemError.invalidPermits
  else .ok (semInit permits.toNat)

/-- The `while (this.permits > 0 && permits) { --this.permits; --permits; }`
loop of `acquire` (semaphore.ts lines 89-92); returns the final values of
`(this.permits, permits)`. -/
def acquireLoop : Nat → Nat → Nat × Nat
  | p + 1, n + 1 => acquireLoop p n
  | p, n => (p, n)

/-- `Semaphore.acquire` (semaphore.ts lines 81-100).  The second component is
`none` when the promise resolved immediately, and `some eid` when a queue item
with id `eid` was pushed by `acquireLock` (lines 245-264: `resolvers` gets one
resolver per missing permit, i.e. `outstanding` = the remaining permits). -/
def acquire (s : SemState) (permits : Int) : Except SemError (SemState × Option Nat) :=
  if permits < 0 then .error SemError.invalidPermits
  else
    let r := acquireLoop s.permits permits.toNat
    if r.2 = 0 then .ok (⟨r.1, s.queue, s.items, s.nextId⟩, none)
    else
      .ok (⟨r.1, s.queue ++ [s.nextId], s.items ++ [(s.nextId, ⟨r.2, none⟩)], s.nextId + 1⟩,
        some s.nextId)

/-- The data captured by the `setTimeout` closure of `tryAcquire`
(semaphore.ts lines 139-158): the item reference, `permitsBck` (the permits
taken from the counter at call start) and `permitsRemaining` (the deficit that
was queued). -/
structure TimerCtx where
  eid : Nat
  permitsBck : Nat
  permitsRemaining : Nat
deriving Repr, DecidableEq

/-- `Semaphore.tryAcquire` (semaphore.ts lines 115-160).  The second component
is `none` when enough permits were available (timeout clock never started) and
`some c` when a queue item was pushed together with a scheduled timeout whose
closure captured `c`. -/
def tryAcquire (s : SemState) (timeout : Int) (permits : Int) :
    Except SemError (SemState × Option TimerCtx) :=
  if timeout < 0 then .error SemError.invalidTimeout
  else if permits < 0 then .error SemError.invalidPermits
  else if permits.toNat ≤ s.permits then
    .ok (⟨s.permits - permits.toNat, s.queue, s.items, s.nextId⟩, none)
  else
    .ok
      (⟨0, s.queue ++ [s.nextId], s.items ++ [(s.nextId, ⟨permits.toNat - s.permits, none⟩)],
          s.nextId + 1⟩,
        some ⟨s.nextId, s.permits, permits.toNat - s.permits⟩)

/-- The body of the `setTimeout` callback scheduled by `tryAcquire`
(semaphore.ts lines 142-158):
`this.permits += permitsBck + (permitsRemaining - resolvers.length)`, then
remove the item from the queue if still present, then `reject(...)` with
`ConcurrencyExceedTimeoutException` (a no-op on an already-settled promise).
`resolvers.length` is read from the live item object at fire time. -/
def fireTimeout (s : SemState) (c : TimerCtx) : SemState :=
  let outstanding := ((lookupItem s.items c.eid).map QueueItem.outstanding).getD 0
  ⟨s.permits + c.permitsBck + (c.permitsRemaining - outstanding),
    removeFirst s.queue c.eid,
    updateItem s.items c.eid (fun it => ⟨it.outstanding, settleKind it.settled .timedOut⟩),
    s.nextId⟩

/-- One iteration of `Semaphore.release` (semaphore.ts lines 177-189): if the
queue is non-empty, splice off and call the head item's first resolver; when
its last resolver is called, the item's `Promise.all` resolves and the item is
removed from the queue head; otherwise increment the permit counter. -/
def releaseOne (s : SemState) : SemState :=
  match s.queue with
  | [] => ⟨s.permits + 1, s.queue, s.items, s.nextId⟩
  | eid :: rest =>
    let it := (lookupItem s.items eid).getD ⟨0, none⟩
    let out' := it.outstanding - 1
    let settled' := if out' = 0 then settleKind it.settled .ok else it.settled
    ⟨s.permits, if out' = 0 then rest else s.queue,
      updateItem s.items eid (fun _ => ⟨out', settled'⟩), s.nextId⟩

/-- `Semaphore.release` (semaphore.ts lines 168-192): validate, then recurse
`this.release(permits - 1)` after one single-unit step. -/
def release (s : SemState) (permits : Int) : Except SemError SemState :=
  if h : permits < 0 then .error SemError.invalidPermits
  else if h0 : permits = 0 then .ok s
  else release (releaseOne s) (permits - 1)
termination_by permits.toNat
decreasing_by omega

/-- `n` single-unit release steps, the unfolding of `release` on a
non-negative argument. -/
def releaseN (s : SemState) : Nat → SemState
  | 0 => s
  | n + 1 => releaseN (releaseOne s) n

/-- `Semaphore.releaseAll` (semaphore.ts lines 201-212): validate, then
`this.queue.splice(0)` and call every remaining resolver of every queued item
(resolving each item's promise unconditionally, whatever its outstanding
count; the resolver arrays themselves are not spliced), then set the permit
counter. -/
def releaseAll (s : SemState) (permits : Int) : Except SemError SemState :=
  if permits < 0 then .error SemError.invalidPermits
  else
    .ok
      ⟨permits.toNat, [],
        s.queue.foldl
          (fun its eid =>
            updateItem its eid (fun it => ⟨it.outstanding, settleKind it.settled .ok⟩))
          s.items,
        s.nextId⟩

/-- `ConcurrencyInterruptedException` (src/exceptions, part_007 region): holds
the caller-supplied `reason`. -/
structure ConcurrencyInterruptedException (ρ : Type) where
  reason : ρ
  message : String

/-- `getReason` of `ConcurrencyInterruptedException`. -/
def ConcurrencyInterruptedException.getReason {ρ : Type}
    (e : ConcurrencyInterruptedException ρ) : ρ :=
  e.reason

/-- `Semaphore.interrupt` (semaphore.ts lines 222-238): validate, build one
exception carrying `reason`, `this.queue.splice(0)` and reject every queued
item with it (a no-op on settled promises), then set the permit counter.  The
returned list pairs each previously queued item id with the exception its
`reject` received, in queue order. -/
def interrupt {ρ : Type} (s : SemState) (reason : ρ) (permits : Int) :
    Except SemError (SemState × List (Nat × ConcurrencyInterruptedException ρ)) :=
  if permits < 0 then .error SemError.invalidPermits
  else
    let ex : ConcurrencyInterruptedException ρ :=
      ⟨reason, "The semaphore has been interrupted."⟩
    .ok
      (⟨permits.toNat, [],
          s.queue.foldl
            (fun its eid =>
              updateItem its eid
                (fun it => ⟨it.outstanding, settleKind it.settled .interrupted⟩))
            s.items,
          s.nextId⟩,
        s.queue.map (fun eid => (eid, ex)))

/-- The `Mutex` object (mutex.ts, part_007 revision): wraps
`new Semaphore(1)`. -/
structure MutexState where
  sem : SemState
deriving Repr, DecidableEq

/-- The `Mutex` constructor: `new Semaphore(1)`. -/
def mkMutex : MutexState :=
  ⟨semInit 1⟩

/-- `Mutex.isLocked` (part_007 lines 20-22, the rev. 0.2.0 corrected getter):
`this.semaphore.permitsAvailable === 0`. -/
def MutexState.isLocked (m : MutexState) : Bool :=
  m.sem.permitsAvailable == 0

/-- `Mutex.queueLength`. -/
def MutexState.queueLength (m : MutexState) : Nat :=
  m.sem.queueLength

/-- `Mutex.lock`: `this.semaphore.acquire(1)`. -/
def MutexState.lock (m : MutexState) : Except SemError (MutexState × Option Nat) :=
  (acquire m.sem 1).map (fun r => (⟨r.1⟩, r.2))

/-- `Mutex.tryLock`: `this.semaphore.tryAcquire(timeout, 1)`. -/
def MutexState.tryLock (m : MutexState) (timeout : Int) :
    Except SemError (MutexState × Option TimerCtx) :=
  (tryAcquire m.sem timeout 1).map (fun r => (⟨r.1⟩, r.2))

/-- `Mutex.unlock`: `this.semaphore.release()`. -/
def MutexState.unlock (m : MutexState) : Except SemError MutexState :=
  (release m.sem 1).map (fun s => ⟨s⟩)

/-- `Mutex.interrupt`: `this.semaphore.interrupt(reason, 1)`. -/
def MutexState.interrupt {ρ : Type} (m : MutexState) (reason : ρ) :
    Except SemError (MutexState × List (Nat × ConcurrencyInterruptedException ρ)) :=
  (CSync.interrupt m.sem reason 1).map (fun r => (⟨r.1⟩, r.2))

/-- The error kind `ProducerConsumerInvalidReadParameterException`. -/
inductive PCError where
  | invalidReadParameter
deriving Repr, DecidableEq

/-- Outcome of a `read`: either the items were dequeued immediately, or the
read is pending on the internal semaphore's queue item `eid`. -/
inductive ReadOutcome (α : Type) where
  | done (xs : List α)
  | pending (eid : Nat)
deriving Repr, DecidableEq

/-- Modelled from the spec: the `ProducerConsumer` state — the implementation
in src/producer-consumer/producer-consumer.ts is a stub (every method throws
"Not implemented yet"), so per the spec (§4.4) it is "an internal ordered item
buffer plus a Semaphore whose permit count mirrors buffer length". -/
structure PCState (α : Type) where
  items : List α
  sem : SemState
deriving Repr, DecidableEq

/-- Modelled from the spec: the `ProducerConsumer` constructor — buffer set to
the initial items, internal semaphore permit count equal to the buffer
length. -/
def mkProducerConsumer {α : Type} (initialItems : List α) : PCState α :=
  ⟨initialItems, semInit initialItems.length⟩

/-- Getter `itemsAvailable` of `ProducerConsumer`. -/
def PCState.itemsAvailable {α : Type} (s : PCState α) : Nat :=
  s.items.length

/-- Modelled from the spec: `ProducerConsumer.read(n)` — "validate `n ≥ 0`
(else invalid-parameter error), `acquire(n)`, then remove and return the first
`n` buffered items (FIFO)" (§4.4).  When the acquire cannot complete
immediately the dequeue is deferred until the acquire resolves, so the state
keeps its buffer and the outcome is `pending`. -/
def PCState.read {α : Type} (s : PCState α) (nItem : Int) :
    Except PCError (PCState α × ReadOutcome α) :=
  if nItem < 0 then .error PCError.invalidReadParameter
  else
    match acquire s.sem nItem with
    | .error _ => .error PCError.invalidReadParameter
    | .ok (sem', none) =>
      .ok (⟨s.items.drop nItem.toNat, sem'⟩, .done (s.items.take nItem.toNat))
    | .ok (sem', some eid) => .ok (⟨s.items, sem'⟩, .pending eid)

/-- Wellformedness of a semaphore state: every queued id and every heap key is
below the fresh-id counter (ids are allocated by incrementing `nextId`). -/
def WF (s : SemState) : Prop :=
  (∀ eid ∈ s.queue, eid < s.nextId) ∧ ∀ p ∈ s.items, p.1 < s.nextId

instance : DecidablePred WF := fun s => by
  unfold WF
  infer_instance

/-! ### Helper lemmas about the heap primitives -/

theorem lookupItem_append_ne (its : List (Nat × QueueItem)) (k eid : Nat) (it : QueueItem)
    (h : eid ≠ k) : lookupItem (its ++ [(k, it)]) eid = lookupItem its eid := by
  unfold lookupItem
  rw [List.find?_append]
  have hk : List.find? (fun p => p.1 == eid) [(k, it)] = none := by
    have hke : (k == eid) = false := beq_eq_false_iff_ne.mpr (Ne.symm h)
    simp [List.find?, hke]
  rw [hk]
  cases List.find? (fun p => p.1 == eid) its <;> simp [Option.or]

theorem lookupItem_append_self (its : List (Nat × QueueItem)) (k : Nat) (it : QueueItem)
    (h : ∀ p ∈ its, p.1 ≠ k) : lookupItem (its ++ [(k, it)]) k = some it := by
  unfold lookupItem
  rw [List.find?_append]
  have hits : List.find? (fun p => p.1 == k) its = none := by
    rw [List.find?_eq_none]
    intro p hp
    simp [h p hp]
  rw [hits]
  simp [List.find?, Option.or]

theorem lookupItem_update_self (its : List (Nat × QueueItem)) (k : Nat)
    (f : QueueItem → QueueItem) :
    lookupItem (updateItem its k f) k = (lookupItem its k).map f := by
  induction its with
  | nil => rfl
  | cons a as ih =>
    by_cases ha : a.1 = k
    · simp [updateItem, lookupItem, List.find?_cons, ha]
    · have ha' : (a.1 == k) = false := by simp [ha]
      simp only [updateItem, List.map_cons, if_neg ha]
      simp only [lookupItem, List.find?_cons, ha']
      exact ih

theorem lookupItem_update_ne (its : List (Nat × QueueItem)) (k e : Nat)
    (f : QueueItem → QueueItem) (h : e ≠ k) :
    lookupItem (updateItem its k f) e = lookupItem its e := by
  induction its with
  | nil => rfl
  | cons a as ih =>
    by_cases ha : a.1 = k
    · have ha' : (a.1 == e) = false := by
        simp [ha]
        exact fun hke => absurd hke.symm h
      simp only [updateItem, List.map_cons, if_pos ha]
      simp only [lookupItem, List.find?_cons, ha']
      exact ih
    · simp only [updateItem, List.map_cons, if_neg ha]
      by_cases hae : a.1 = e
      · simp [lookupItem, List.find?_cons, hae]
      · have hae' : (a.1 == e) = false := by simp [hae]
        simp only [lookupItem, List.find?_cons, hae']
        exact ih

theorem updateItem_updateItem (its : List (Nat × QueueItem)) (k : Nat)
    (f g : QueueItem → QueueItem) :
    updateItem (updateItem its k f) k g = updateItem its k (fun it => g (f it)) := by
  unfold updateItem
  rw [List.map_map]
  apply List.map_congr_left
  intro a _
  by_cases ha : a.1 = k <;> simp [ha]

theorem lookupItem_foldl_update (l : List Nat) (its : List (Nat × QueueItem))
    (f : QueueItem → QueueItem) (hf : ∀ a, f (f a) = f a) (x : Nat) :
    lookupItem (l.foldl (fun acc e => updateItem acc e f) its) x
      = if x ∈ l then (lookupItem its x).map f else lookupItem its x := by
  induction l generalizing its with
  | nil => simp
  | cons a as ih =>
    simp only [List.foldl_cons]
    rw [ih]
    by_cases hx : x ∈ as
    · simp only [hx, if_true, List.mem_cons, or_true]
      by_cases hax : x = a
      · subst hax
        rw [lookupItem_update_self]
        cases lookupItem its x <;> simp [hf]
      · rw [lookupItem_update_ne _ _ _ _ hax]
    · by_cases hax : x = a
      · subst hax
        simp only [hx, if_false, List.mem_cons, true_or, if_true]
        rw [lookupItem_update_self]
      · have : x ∉ a :: as := by simp [hax, hx]
        simp only [hx, if_false, this, if_false]
        rw [lookupItem_update_ne _ _ _ _ hax]

theorem settleKind_idem (o : Option SettleKind) (k : SettleKind) :
    settleKind (settleKind o k) k = settleKind o k := by
  cases o <;> rfl

theorem not_mem_removeFirst (l : List Nat) (x : Nat) (h : l.Nodup) :
    x ∉ removeFirst l x := by
  induction l with
  | nil => simp [removeFirst]
  | cons a as ih =>
    rw [List.nodup_cons] at h
    by_cases hax : a = x
    · subst hax
      simp only [removeFirst, if_pos rfl]
      exact h.1
    · simp only [removeFirst, if_neg hax, List.mem_cons]
      push_neg
      exact ⟨fun hxa => absurd hxa.symm hax, ih h.2⟩

/-! ### Helper lemmas about the operations -/

theorem acquireLoop_eq (p n : Nat) : acquireLoop p n = (p - min p n, n - min p n) := by
  induction p generalizing n with
  | zero => cases n <;> simp [acquireLoop]
  | succ k ih =>
    cases n with
    | zero => simp [acquireLoop]
    | succ m =>
      have h1 : acquireLoop (k + 1) (m + 1) = acquireLoop k m := by simp [acquireLoop]
      rw [h1, ih]
      have hmin : min (k + 1) (m + 1) = min k m + 1 := by omega
      rw [hmin]
      congr 1 <;> omega

theorem release_toNat (m : Nat) (s : SemState) :
    release s (m : Int) = .ok (releaseN s m) := by
  induction m generalizing s with
  | zero => rw [release]; simp [releaseN]
  | succ k ih =>
    rw [release]
    have h1 : ¬((k + 1 : Nat) : Int) < 0 := by omega
    have h2 : ¬((k + 1 : Nat) : Int) = 0 := by omega
    rw [dif_neg h1, dif_neg h2]
    have h3 : ((k + 1 : Nat) : Int) - 1 = (k : Int) := by omega
    rw [h3, ih]
    rfl

theorem releaseN_empty (p : Nat) (its : List (Nat × QueueItem)) (nid : Nat) (n : Nat) :
    releaseN ⟨p, [], its, nid⟩ n = ⟨p + n, [], its, nid⟩ := by
  induction n generalizing p with
  | zero => simp [releaseN]
  | succ k ih =>
    have h1 : releaseN (⟨p, [], its, nid⟩ : SemState) (k + 1)
        = releaseN (releaseOne ⟨p, [], its, nid⟩) k := rfl
    rw [h1]
    have h2 : releaseOne (⟨p, [], its, nid⟩ : SemState) = ⟨p + 1, [], its, nid⟩ := rfl
    rw [h2, ih]
    congr 1
    omega

theorem releaseN_partial (p eid : Nat) (rest : List Nat) (its : List (Nat × QueueItem))
    (nid : Nat) (it : QueueItem) (n : Nat) (hl : lookupItem its eid = some it)
    (h0 : 0 < n) (hn : n < it.outstanding) :
    releaseN ⟨p, eid :: rest, its, nid⟩ n
      = ⟨p, eid :: rest, updateItem its eid (fun _ => ⟨it.outstanding - n, it.settled⟩), nid⟩ := by
  induction n generalizing its it with
  | zero => omega
  | succ k ih =>
    have hro : releaseOne (⟨p, eid :: rest, its, nid⟩ : SemState)
        = ⟨p, eid :: rest,
            updateItem its eid (fun _ => ⟨it.outstanding - 1, it.settled⟩), nid⟩ := by
      have hne : ¬(it.outstanding - 1 = 0) := by omega
      simp [releaseOne, hl, hne]
    have h1 : releaseN (⟨p, eid :: rest, its, nid⟩ : SemState) (k + 1)
        = releaseN (releaseOne ⟨p, eid :: rest, its, nid⟩) k := rfl
    rw [h1, hro]
    cases Nat.eq_zero_or_pos k with
    | inl hk0 =>
      subst hk0
      simp [releaseN]
    | inr hkpos =>
      rw [ih (updateItem its eid fun _ => ⟨it.outstanding - 1, it.settled⟩)
        ⟨it.outstanding - 1, it.settled⟩ ?_ hkpos ?_]
      · rw [updateItem_updateItem]
        have : it.outstanding - 1 - k = it.outstanding - (k + 1) := by omega
        simp [this]
      · rw [lookupItem_update_self, hl]
        rfl
      · simp only []
        omega

theorem releaseN_head_consume (p eid : Nat) (rest : List Nat) (its : List (Nat × QueueItem))
    (nid : Nat) (it : QueueItem) (n : Nat) (hl : lookupItem its eid = some it)
    (hpos : 0 < it.outstanding) (hn : it.outstanding ≤ n) :
    releaseN ⟨p, eid :: rest, its, nid⟩ n
      = releaseN
          ⟨p, rest, updateItem its eid (fun _ => ⟨0, settleKind it.settled SettleKind.ok⟩), nid⟩
          (n - it.outstanding) := by
  obtain ⟨o, ho⟩ : ∃ o, it.outstanding = o := ⟨it.outstanding, rfl⟩
  induction o generalizing its it n with
  | zero => omega
  | succ o2 ih =>
    obtain ⟨m, hm⟩ : ∃ m, n = m + 1 := ⟨n - 1, by omega⟩
    subst hm
    have h1 : releaseN (⟨p, eid :: rest, its, nid⟩ : SemState) (m + 1)
        = releaseN (releaseOne ⟨p, eid :: rest, its, nid⟩) m := rfl
    cases Nat.eq_zero_or_pos o2 with
    | inl ho2 =>
      subst ho2
      have hout : it.outstanding = 1 := by omega
      have hro : releaseOne (⟨p, eid :: rest, its, nid⟩ : SemState)
          = ⟨p, rest,
              updateItem its eid (fun _ => ⟨0, settleKind it.settled SettleKind.ok⟩), nid⟩ := by
        simp [releaseOne, hl, hout]
      rw [h1, hro, hout]
      have hm1 : m + 1 - 1 = m := by omega
      rw [hm1]
    | inr ho2pos =>
      have hro : releaseOne (⟨p, eid :: rest, its, nid⟩ : SemState)
          = ⟨p, eid :: rest,
              updateItem its eid (fun _ => ⟨it.outstanding - 1, it.settled⟩), nid⟩ := by
        have hne : ¬(it.outstanding - 1 = 0) := by omega
        simp [releaseOne, hl, hne]
      rw [h1, hro]
      rw [ih (updateItem its eid fun _ => ⟨it.outstanding - 1, it.settled⟩)
        ⟨it.outstanding - 1, it.settled⟩ m ?_ ?_ ?_ ?_]
      · rw [updateItem_updateItem]
        have harith : m - (it.outstanding - 1) = m + 1 - it.outstanding := by omega
        rw [harith]
      · rw [lookupItem_update_self, hl]
        rfl
      · simp only []
        omega
      · simp only []
        omega
      · simp only []
        omega

theorem acquire_of_le (s : SemState) (n : Int) (h0 : 0 ≤ n) (hle : n.toNat ≤ s.permits) :
    acquire s n = .ok (⟨s.permits - n.toNat, s.queue, s.items, s.nextId⟩, none) := by
  have hr : acquireLoop s.permits n.toNat = (s.permits - n.toNat, 0) := by
    rw [acquireLoop_eq]
    have hmin : min s.permits n.toNat = n.toNat := by omega
    rw [hmin]
    congr 1
    omega
  simp [acquire, not_lt.mpr h0, hr]

theorem acquire_of_gt (s : SemState) (n : Int) (h0 : 0 ≤ n) (hgt : s.permits < n.toNat) :
    acquire s n
      = .ok (⟨0, s.queue ++ [s.nextId], s.items ++ [(s.nextId, ⟨n.toNat - s.permits, none⟩)],
          s.nextId + 1⟩, some s.nextId) := by
  have hr : acquireLoop s.permits n.toNat = (0, n.toNat - s.permits) := by
    rw [acquireLoop_eq]
    have hmin : min s.permits n.toNat = s.permits := by omega
    rw [hmin]
    congr 1
    omega
  have hne : ¬(n.toNat - s.permits = 0) := by omega
  simp [acquire, not_lt.mpr h0, hr, hne]

theorem permitsRequired_after_push (s : SemState) (d : Nat) (hWF : WF s) :
    SemState.permitsRequired
        ⟨0, s.queue ++ [s.nextId], s.items ++ [(s.nextId, ⟨d, none⟩)], s.nextId + 1⟩
      = s.permitsRequired + d := by
  unfold SemState.permitsRequired
  rw [List.map_append, List.sum_append]
  congr 1
  · apply congrArg List.sum
    apply List.map_congr_left
    intro eid he
    have hlt := hWF.1 eid he
    rw [lookupItem_append_ne _ _ _ _ (by omega)]
  · have hsing : lookupItem (s.items ++ [(s.nextId, ⟨d, none⟩)]) s.nextId
        = some ⟨d, none⟩ := by
      apply lookupItem_append_self
      intro p hp
      have := hWF.2 p hp
      omega
    simp [hsing]

/-- C3: for every `n ≥ 0` and every state, `acquire(n)` synchronously
decrements `permitsAvailable` by exactly `k = min(n, permitsAvailable)`; if
`k = n` (including `n = 0`) it resolves immediately and appends no queue
entry; otherwise it appends exactly one entry with `n - k` outstanding units
to the tail of the queue, so `permitsRequired` grows by exactly `n - k`; for
`n < 0` it reports the invalid-permits error and (the operation being encoded
as a pure function on the state) changes nothing. -/
theorem acquire_spec (s : SemState) (n : Int) :
    (n < 0 → acquire s n = .error SemError.invalidPermits)
    ∧ (0 ≤ n → ∃ s' o, acquire s n = .ok (s', o)
        ∧ s'.permitsAvailable = s.permitsAvailable - min n.toNat s.permitsAvailable)
    ∧ (0 ≤ n → n.toNat ≤ s.permitsAvailable →
        acquire s n = .ok (⟨s.permitsAvailable - n.toNat, s.queue, s.items, s.nextId⟩, none))
    ∧ (0 ≤ n → s.permitsAvailable < n.toNat → WF s →
        ∃ s', acquire s n = .ok (s', some s.nextId)
          ∧ s'.permitsAvailable = 0
          ∧ s'.queue = s.queue ++ [s.nextId]
          ∧ s'.queueLength = s.queueLength + 1
          ∧ lookupItem s'.items s.nextId = some ⟨n.toNat - s.permitsAvailable, none⟩
          ∧ s'.permitsRequired = s.permitsRequired + (n.toNat - s.permitsAvailable)) := by
  refine ⟨fun h => by simp [acquire, h], ?_, fun h0 hle => acquire_of_le s n h0 hle, ?_⟩
  · intro h0
    by_cases hle : n.toNat ≤ s.permits
    · refine ⟨_, _, acquire_of_le s n h0 hle, ?_⟩
      simp only [SemState.permitsAvailable]
      omega
    · refine ⟨_, _, acquire_of_gt s n h0 (by omega), ?_⟩
      simp only [SemState.permitsAvailable]
      omega
  · intro h0 hgt hWF
    refine ⟨_, acquire_of_gt s n h0 hgt, rfl, rfl, ?_, ?_, ?_⟩
    · simp [SemState.queueLength]
    · apply lookupItem_append_self
      intro p hp
      have := hWF.2 p hp
      omega
    · exact permitsRequired_after_push s (n.toNat - s.permits) hWF

theorem acquire_spec_witness :
    acquire (semInit 0) (-1) = .error SemError.invalidPermits
    ∧ acquire (semInit 2) 1 = .ok (⟨1, [], [], 0⟩, none)
    ∧ (acquire (semInit 1) 3).toOption.map
          (fun r => (r.1.permitsAvailable, r.1.queue, r.1.permitsRequired, r.2))
        = some (0, [0], 2, some 0) := by
  refine ⟨(acquire_spec (semInit 0) (-1)).1 (by decide),
    (acquire_spec (semInit 2) 1).2.2.1 (by decide) (by decide), ?_⟩
  obtain ⟨s', h1, h2, h3, h4, h5, h6⟩ :=
    (acquire_spec (semInit 1) 3).2.2.2 (by decide) (by decide) (by decide)
  rw [h1]
  show some (s'.permitsAvailable, s'.queue, s'.permitsRequired, some (semInit 1).nextId)
      = some (0, [0], 2, some 0)
  rw [h2, h3, h6]
  rfl

/-- C4: for every `n ≥ 0`, `release(n)` performs `n` single-unit steps in
order; each step delivers one unit to the head entry's next outstanding unit
signal when the queue is non-empty (removing and resolving the head entry
when its last outstanding unit is delivered) and otherwise increments the
permit counter by one — so released permits always reach the head entry
before any later entry, one `release(n)` may satisfy parts of several queued
entries in FIFO order, and the remainder falls through to the counter;
`release(0)` changes nothing, and a negative `n` reports the invalid-permits
error. -/
theorem release_fifo_spec :
    (∀ (s : SemState) (n : Int), n < 0 → release s n = .error SemError.invalidPermits)
    ∧ (∀ s : SemState, release s 0 = .ok s)
    ∧ (∀ (s : SemState) (n : Int), 0 ≤ n → release s n = .ok (releaseN s n.toNat))
    ∧ (∀ (p : Nat) (its : List (Nat × QueueItem)) (nid n : Nat),
        releaseN ⟨p, [], its, nid⟩ n = ⟨p + n, [], its, nid⟩)
    ∧ (∀ (p eid : Nat) (rest : List Nat) (its : List (Nat × QueueItem)) (nid : Nat)
        (it : QueueItem) (n : Nat), lookupItem its eid = some it → 0 < n →
        n < it.outstanding →
        releaseN ⟨p, eid :: rest, its, nid⟩ n
          = ⟨p, eid :: rest, updateItem its eid (fun _ => ⟨it.outstanding - n, it.settled⟩),
              nid⟩)
    ∧ (∀ (p eid : Nat) (rest : List Nat) (its : List (Nat × QueueItem)) (nid : Nat)
        (it : QueueItem) (n : Nat), lookupItem its eid = some it →
        0 < it.outstanding → it.outstanding ≤ n →
        releaseN ⟨p, eid :: rest, its, nid⟩ n
          = releaseN
              ⟨p, rest,
                updateItem its eid (fun _ => ⟨0, settleKind it.settled SettleKind.ok⟩), nid⟩
              (n - it.outstanding)) := by
  refine ⟨?_, ?_, ?_, releaseN_empty, releaseN_partial, releaseN_head_consume⟩
  · intro s n h
    rw [release, dif_pos h]
  · intro s
    rw [release]
    norm_num
  · intro s n h0
    have hb := release_toNat n.toNat s
    rwa [Int.toNat_of_nonneg h0] at hb

theorem release_fifo_spec_witness :
    release (semInit 0) (-2) = .error SemError.invalidPermits
    ∧ release (semInit 5) 0 = .ok (semInit 5)
    ∧ release (semInit 0) 2 = .ok (releaseN (semInit 0) 2)
    ∧ releaseN (semInit 3) 2 = ⟨5, [], [], 0⟩
    ∧ releaseN ⟨0, [7], [(7, ⟨3, none⟩)], 8⟩ 1
        = ⟨0, [7], updateItem [(7, ⟨3, none⟩)] 7 (fun _ => ⟨2, none⟩), 8⟩
    ∧ releaseN ⟨0, [5, 9], [(5, ⟨1, none⟩), (9, ⟨2, none⟩)], 10⟩ 2
        = releaseN
            ⟨0, [9], updateItem [(5, ⟨1, none⟩), (9, ⟨2, none⟩)] 5
                (fun _ => ⟨0, some SettleKind.ok⟩), 10⟩ 1 :=
  ⟨release_fifo_spec.1 (semInit 0) (-2) (by decide),
    release_fifo_spec.2.1 (semInit 5),
    release_fifo_spec.2.2.1 (semInit 0) 2 (by decide),
    release_fifo_spec.2.2.2.1 3 [] 0 2,
    release_fifo_spec.2.2.2.2.1 0 7 [] [(7, ⟨3, none⟩)] 8 ⟨3, none⟩ 1 (by decide) (by decide)
      (by decide),
    release_fifo_spec.2.2.2.2.2 0 5 [9] [(5, ⟨1, none⟩), (9, ⟨2, none⟩)] 10 ⟨1, none⟩ 2
      (by decide) (by decide) (by decide)⟩

/-- C1: a `tryAcquire(timeout, n)` call that queues an entry records, in the
data captured by its timeout closure, `reservedInitially` (the counter value
at call start) and the `deficit` `n - reservedInitially`; when the deadline
fires while the entry is still queued and unsatisfied (its promise
unsettled), the permit counter grows by exactly
`reservedInitially + (deficit - remainingOutstanding)`, the entry is removed
from wherever it sits in the queue, the call's promise is rejected with the
acquire-timeout error, and the items of all other entries — in particular
permits already delivered to them — are left untouched. -/
theorem tryAcquire_timeout_rollback (s0 : SemState) (timeout n : Int) (s1 : SemState)
    (c : TimerCtx) (htry : tryAcquire s0 timeout n = .ok (s1, some c)) :
    (c.eid = s0.nextId ∧ c.permitsBck = s0.permitsAvailable
      ∧ c.permitsRemaining = n.toNat - s0.permitsAvailable)
    ∧ ∀ (s2 : SemState) (it : QueueItem), c.eid ∈ s2.queue →
        lookupItem s2.items c.eid = some it → it.settled = none →
        (fireTimeout s2 c).permitsAvailable
            = s2.permitsAvailable + (c.permitsBck + (c.permitsRemaining - it.outstanding))
        ∧ (fireTimeout s2 c).queue = removeFirst s2.queue c.eid
        ∧ (s2.queue.Nodup → c.eid ∉ (fireTimeout s2 c).queue)
        ∧ lookupItem (fireTimeout s2 c).items c.eid
            = some ⟨it.outstanding, some SettleKind.timedOut⟩
        ∧ ∀ e, e ≠ c.eid → lookupItem (fireTimeout s2 c).items e = lookupItem s2.items e := by
  constructor
  · by_cases h1 : timeout < 0
    · unfold tryAcquire at htry
      rw [if_pos h1] at htry
      exact absurd htry (by simp)
    · by_cases h2 : n < 0
      · unfold tryAcquire at htry
        rw [if_neg h1, if_pos h2] at htry
        exact absurd htry (by simp)
      · by_cases h3 : n.toNat ≤ s0.permits
        · unfold tryAcquire at htry
          rw [if_neg h1, if_neg h2, if_pos h3] at htry
          exact absurd htry (by simp)
        · unfold tryAcquire at htry
          rw [if_neg h1, if_neg h2, if_neg h3] at htry
          have hc : (⟨s0.nextId, s0.permits, n.toNat - s0.permits⟩ : TimerCtx) = c :=
            Option.some.inj (congrArg Prod.snd (Except.ok.inj htry))
          rw [← hc]
          exact ⟨rfl, rfl, rfl⟩
  · intro s2 it hmem hlk hset
    have hP1 : (fireTimeout s2 c).permitsAvailable
        = s2.permitsAvailable + (c.permitsBck + (c.permitsRemaining - it.outstanding)) := by
      simp [fireTimeout, SemState.permitsAvailable, hlk]
      omega
    have hP2 : (fireTimeout s2 c).queue = removeFirst s2.queue c.eid := rfl
    have hitems : (fireTimeout s2 c).items
        = updateItem s2.items c.eid
            (fun j => ⟨j.outstanding, settleKind j.settled SettleKind.timedOut⟩) := rfl
    have hP4 : lookupItem (fireTimeout s2 c).items c.eid
        = some ⟨it.outstanding, some SettleKind.timedOut⟩ := by
      rw [hitems, lookupItem_update_self, hlk]
      simp [settleKind, hset]
    refine ⟨hP1, hP2, ?_, hP4, ?_⟩
    · intro hnd
      rw [hP2]
      exact not_mem_removeFirst _ _ hnd
    · intro e he
      rw [hitems]
      exact lookupItem_update_ne _ _ _ _ he

theorem tryAcquire_timeout_rollback_witness :
    tryAcquire (semInit 1) 50 3 = .ok (⟨0, [0], [(0, ⟨2, none⟩)], 1⟩, some ⟨0, 1, 2⟩)
    ∧ (fireTimeout ⟨0, [0], [(0, ⟨1, none⟩)], 1⟩ ⟨0, 1, 2⟩).permitsAvailable = 0 + (1 + (2 - 1))
    ∧ (fireTimeout ⟨0, [0], [(0, ⟨1, none⟩)], 1⟩ ⟨0, 1, 2⟩).queue = removeFirst [0] 0
    ∧ lookupItem (fireTimeout ⟨0, [0], [(0, ⟨1, none⟩)], 1⟩ ⟨0, 1, 2⟩).items 0
        = some ⟨1, some SettleKind.timedOut⟩ := by
  have htry : tryAcquire (semInit 1) 50 3
      = .ok (⟨0, [0], [(0, ⟨2, none⟩)], 1⟩, some ⟨0, 1, 2⟩) := rfl
  have h := (tryAcquire_timeout_rollback (semInit 1) 50 3 ⟨0, [0], [(0, ⟨2, none⟩)], 1⟩
    ⟨0, 1, 2⟩ htry).2 ⟨0, [0], [(0, ⟨1, none⟩)], 1⟩ ⟨1, none⟩ (by decide) (by decide)
    (by decide)
  exact ⟨htry, h.1, h.2.1, h.2.2.2.1⟩

/-- C5: for every `resetTo ≥ 0`, `interrupt(reason, resetTo)` rejects every
currently-queued waiter with the interrupted error carrying exactly the
caller-supplied `reason` (retrievable via `getReason`), empties the queue and
sets `permitsAvailable` to `resetTo`; for `resetTo < 0` it reports the
invalid-permits error before any mutation (the operation being encoded as a
pure function, the error result carries no state change). -/
theorem interrupt_spec (ρ : Type) (reason : ρ) (s : SemState) (resetTo : Int) :
    (0 ≤ resetTo →
      ∃ s' rejected, interrupt s reason resetTo = .ok (s', rejected)
        ∧ s'.permitsAvailable = resetTo.toNat
        ∧ s'.queueLength = 0
        ∧ rejected.map Prod.fst = s.queue
        ∧ rejected.map (fun pr => pr.2.getReason) = s.queue.map (fun _ => reason)
        ∧ (∀ pr ∈ rejected, pr.2.getReason = reason)
        ∧ (∀ eid it, eid ∈ s.queue → lookupItem s.items eid = some it → it.settled = none →
            lookupItem s'.items eid = some ⟨it.outstanding, some SettleKind.interrupted⟩))
    ∧ (resetTo < 0 → interrupt s reason resetTo = .error SemError.invalidPermits) := by
  constructor
  · intro h0
    have hok : interrupt s reason resetTo
        = .ok
            (⟨resetTo.toNat, [],
                s.queue.foldl
                  (fun its eid =>
                    updateItem its eid
                      (fun it => ⟨it.outstanding, settleKind it.settled SettleKind.interrupted⟩))
                  s.items,
                s.nextId⟩,
              s.queue.map
                (fun eid => (eid, ⟨reason, "The semaphore has been interrupted."⟩))) := by
      unfold interrupt
      rw [if_neg (not_lt.mpr h0)]
    refine ⟨_, _, hok, rfl, rfl, ?_, ?_, ?_, ?_⟩
    · rw [List.map_map]
      exact List.map_id _
    · rw [List.map_map]
      rfl
    · intro pr hpr
      rw [List.mem_map] at hpr
      obtain ⟨eid, _, rfl⟩ := hpr
      rfl
    · intro eid it hmem hlk hset
      have hfold := lookupItem_foldl_update s.queue s.items
        (fun j => ⟨j.outstanding, settleKind j.settled SettleKind.interrupted⟩)
        (fun a => by simp [settleKind_idem]) eid
      show lookupItem (s.queue.foldl _ s.items) eid = _
      rw [hfold, if_pos hmem, hlk]
      simp [settleKind, hset]
  · intro hneg
    unfold interrupt
    rw [if_pos hneg]

theorem interrupt_spec_witness :
    (interrupt (⟨0, [4], [(4, ⟨2, none⟩)], 5⟩ : SemState) (7 : Nat) 5).toOption.map
        (fun r => (r.1.permitsAvailable, r.1.queueLength, r.2.map Prod.fst,
          r.2.map (fun pr => pr.2.getReason), lookupItem r.1.items 4))
      = some (5, 0, [4], [7], some ⟨2, some SettleKind.interrupted⟩) := by
  obtain ⟨s', rej, h1, h2, h3, h4, h5, h6, h7⟩ :=
    (interrupt_spec Nat 7 ⟨0, [4], [(4, ⟨2, none⟩)], 5⟩ 5).1 (by decide)
  rw [h1]
  show some (s'.permitsAvailable, s'.queueLength, rej.map Prod.fst,
      rej.map (fun pr => pr.2.getReason), lookupItem s'.items 4) = _
  rw [h2, h3, h4, h5, h7 4 ⟨2, none⟩ (by decide) (by decide) (by decide)]
  rfl

/-- C6 (amended): for every `resetTo ≥ 0`, `releaseAll(resetTo)` reports no
error and performs a hard reset — every queued entry's promise resolves
successfully regardless of how many units it still required, the queue
becomes empty, and `permitsAvailable` is set to `resetTo`; for
`resetTo < 0`, however, it reports the invalid-permits error (so it is not
non-throwing for every `resetTo` value, contrary to the claim as stated). -/
theorem releaseAll_spec (s : SemState) (resetTo : Int) :
    (0 ≤ resetTo →
      ∃ s', releaseAll s resetTo = .ok s'
        ∧ s'.permitsAvailable = resetTo.toNat
        ∧ s'.queueLength = 0
        ∧ ∀ eid it, eid ∈ s.queue → lookupItem s.items eid = some it → it.settled = none →
            lookupItem s'.items eid = some ⟨it.outstanding, some SettleKind.ok⟩)
    ∧ (resetTo < 0 → releaseAll s resetTo = .error SemError.invalidPermits) := by
  constructor
  · intro h0
    have hok : releaseAll s resetTo
        = .ok
            ⟨resetTo.toNat, [],
              s.queue.foldl
                (fun its eid =>
                  updateItem its eid
                    (fun it => ⟨it.outstanding, settleKind it.settled SettleKind.ok⟩))
                s.items,
              s.nextId⟩ := by
      unfold releaseAll
      rw [if_neg (not_lt.mpr h0)]
    refine ⟨_, hok, rfl, rfl, ?_⟩
    intro eid it hmem hlk hset
    have hfold := lookupItem_foldl_update s.queue s.items
      (fun j => ⟨j.outstanding, settleKind j.settled SettleKind.ok⟩)
      (fun a => by simp [settleKind_idem]) eid
    show lookupItem (s.queue.foldl _ s.items) eid = _
    rw [hfold, if_pos hmem, hlk]
    simp [settleKind, hset]
  · intro hneg
    unfold releaseAll
    rw [if_pos hneg]

theorem releaseAll_neg_throws :
    releaseAll (semInit 0) (-1) = .error SemError.invalidPermits := rfl

theorem releaseAll_spec_witness :
    (releaseAll (⟨0, [4], [(4, ⟨6, none⟩)], 5⟩ : SemState) 2).toOption.map
        (fun s' => (s'.permitsAvailable, s'.queueLength, lookupItem s'.items 4))
      = some (2, 0, some ⟨6, some SettleKind.ok⟩) := by
  obtain ⟨s', h1, h2, h3, h4⟩ :=
    (releaseAll_spec ⟨0, [4], [(4, ⟨6, none⟩)], 5⟩ 2).1 (by decide)
  rw [h1]
  show some (s'.permitsAvailable, s'.queueLength, lookupItem s'.items 4) = _
  rw [h2, h3, h4 4 ⟨6, none⟩ (by decide) (by decide) (by decide)]
  rfl

/-- C2 (code bug): the claim — backed by the repository's own test
("should not reset the state after a successful tryAcquire",
semaphore.spec.ts lines 253-268) and the changelog fix "clear timeout after
acquire" (v0.1.2) — says the deadline firing after the entry is fully
satisfied changes nothing.  The source in src never cancels the timer, and
its callback unconditionally adds `permitsBck + (permitsRemaining -
resolvers.length)` to the counter: on `Semaphore(1)` with `tryAcquire(60, 2)`
satisfied by `release(1)` before the deadline, the late firing raises
`permitsAvailable` from 0 to 2 (the queue is unchanged and no rejection is
delivered, but the counter is corrupted). -/
theorem tryAcquire_timeout_after_success_bug :
    tryAcquire (semInit 1) 60 2 = .ok (⟨0, [0], [(0, ⟨1, none⟩)], 1⟩, some ⟨0, 1, 1⟩)
    ∧ release ⟨0, [0], [(0, ⟨1, none⟩)], 1⟩ 1 = .ok ⟨0, [], [(0, ⟨0, some SettleKind.ok⟩)], 1⟩
    ∧ (⟨0, [], [(0, ⟨0, some SettleKind.ok⟩)], 1⟩ : SemState).permitsAvailable = 0
    ∧ fireTimeout ⟨0, [], [(0, ⟨0, some SettleKind.ok⟩)], 1⟩ ⟨0, 1, 1⟩
        = ⟨2, [], [(0, ⟨0, some SettleKind.ok⟩)], 1⟩
    ∧ (fireTimeout ⟨0, [], [(0, ⟨0, some SettleKind.ok⟩)], 1⟩ ⟨0, 1, 1⟩).permitsAvailable
        = 2 := by
  refine ⟨rfl, ?_, rfl, rfl, rfl⟩
  rw [show (1 : Int) = ((1 : Nat) : Int) from rfl, release_toNat]
  rfl

/-- C7: `Mutex.isLocked` (part_007, the corrected rev. 0.2.0 getter) is true
exactly when the internal semaphore's `permitsAvailable` is 0 — in
particular, after `lock()` succeeds while no other caller is queued,
`isLocked` is true even though `queueLength` is 0. -/
theorem mutex_isLocked_spec :
    (∀ m : MutexState, m.isLocked = true ↔ m.sem.permitsAvailable = 0)
    ∧ ∀ m : MutexState, m.sem.permitsAvailable = 1 → m.sem.queue = [] →
        ∃ m', m.lock = .ok (m', none) ∧ m'.isLocked = true ∧ m'.queueLength = 0 := by
  constructor
  · intro m
    simp [MutexState.isLocked]
  · intro m hp hq
    obtain ⟨⟨p, q, its, nid⟩⟩ := m
    have hp' : p = 1 := hp
    have hq' : q = [] := hq
    subst hp'
    subst hq'
    refine ⟨⟨⟨0, [], its, nid⟩⟩, ?_, rfl, rfl⟩
    have ha := acquire_of_le ⟨1, [], its, nid⟩ 1 (by decide) (by simp)
    simp [MutexState.lock, ha, Except.map]

theorem mutex_isLocked_spec_witness :
    (mkMutex.isLocked = true ↔ mkMutex.sem.permitsAvailable = 0)
    ∧ (mkMutex.lock).toOption.map (fun r => (r.1.isLocked, r.1.queueLength, r.2))
        = some (true, 0, none) := by
  refine ⟨mutex_isLocked_spec.1 mkMutex, ?_⟩
  obtain ⟨m', h1, h2, h3⟩ := mutex_isLocked_spec.2 mkMutex (by decide) (by decide)
  rw [h1]
  show some (m'.isLocked, m'.queueLength, (none : Option Nat)) = some (true, 0, none)
  rw [h2, h3]

/-- C8 (modelled from the spec, the producer-consumer implementation being a
stub in the sources): `read` with a negative count reports the
invalid-read-parameter error; for `n ≥ 0` with `n` permits available in the
internal semaphore, `read(n)` acquires `n` permits and removes and returns
the first `n` buffered items in FIFO order.  In particular
`ProducerConsumer([1,2,3])` answers `read(2)` immediately with `[1,2]`,
leaving one item buffered (see the witness). -/
theorem pc_read_spec (α : Type) (s : PCState α) (n : Int) :
    (n < 0 → s.read n = .error PCError.invalidReadParameter)
    ∧ (0 ≤ n → n.toNat ≤ s.sem.permitsAvailable →
        s.read n = .ok (⟨s.items.drop n.toNat,
            ⟨s.sem.permitsAvailable - n.toNat, s.sem.queue, s.sem.items, s.sem.nextId⟩⟩,
          .done (s.items.take n.toNat))) := by
  constructor
  · intro h
    simp [PCState.read, h]
  · intro h0 hle
    have ha := acquire_of_le s.sem n h0 hle
    simp [PCState.read, not_lt.mpr h0, ha]
    rfl

theorem pc_read_spec_witness :
    (mkProducerConsumer [1, 2, 3]).read (-1) = .error PCError.invalidReadParameter
    ∧ (mkProducerConsumer [1, 2, 3]).read 2
        = .ok (⟨[3], ⟨1, [], [], 0⟩⟩, .done [1, 2])
    ∧ (⟨[3], ⟨1, [], [], 0⟩⟩ : PCState Nat).itemsAvailable = 1 := by
  refine ⟨(pc_read_spec Nat (mkProducerConsumer [1, 2, 3]) (-1)).1 (by decide), ?_, rfl⟩
  exact (pc_read_spec Nat (mkProducerConsumer [1, 2, 3]) 2).2 (by decide) (by decide)

/-- C9: `unlock()` on an unlocked `Mutex` (internal semaphore at 1 permit,
empty queue) raises the permit count to 2 — nothing caps it at the
construction capacity of 1 — so the next two `lock()` calls both resolve
immediately (outcome `none`, no queue entry): mutual exclusion does not hold
until the surplus permit is consumed. -/
theorem mutex_unlock_surplus :
    mkMutex.unlock = .ok ⟨⟨2, [], [], 0⟩⟩
    ∧ (⟨⟨2, [], [], 0⟩⟩ : MutexState).isLocked = false
    ∧ MutexState.lock ⟨⟨2, [], [], 0⟩⟩ = .ok (⟨⟨1, [], [], 0⟩⟩, none)
    ∧ MutexState.lock ⟨⟨1, [], [], 0⟩⟩ = .ok (⟨⟨0, [], [], 0⟩⟩, none)
    ∧ (⟨⟨0, [], [], 0⟩⟩ : MutexState).isLocked = true := by
  refine ⟨?_, rfl, rfl, rfl, rfl⟩
  show (release (semInit 1) 1).map (fun s => (⟨s⟩ : MutexState)) = .ok ⟨⟨2, [], [], 0⟩⟩
  rw [show (1 : Int) = ((1 : Nat) : Int) from rfl, release_toNat]
  rfl

/-- C10: the state `permitsAvailable > 0 ∧ queueLength > 0` is reachable:
on `Semaphore(1)`, `tryAcquire(100, 3)` queues entry 0 (reserving the 1
permit), `acquire(2)` queues entry 1 behind it, and entry 0's deadline then
fires — the rollback restores 1 permit to the counter while entry 1 stays
queued, unsatisfied and untouched; a fresh `acquire(1)` arriving afterwards
consumes that counter permit immediately, ahead of the still-queued earlier
waiter. -/
theorem stranded_permits_reachable :
    tryAcquire (semInit 1) 100 3 = .ok (⟨0, [0], [(0, ⟨2, none⟩)], 1⟩, some ⟨0, 1, 2⟩)
    ∧ acquire ⟨0, [0], [(0, ⟨2, none⟩)], 1⟩ 2
        = .ok (⟨0, [0, 1], [(0, ⟨2, none⟩), (1, ⟨2, none⟩)], 2⟩, some 1)
    ∧ fireTimeout ⟨0, [0, 1], [(0, ⟨2, none⟩), (1, ⟨2, none⟩)], 2⟩ ⟨0, 1, 2⟩
        = ⟨1, [1], [(0, ⟨2, some SettleKind.timedOut⟩), (1, ⟨2, none⟩)], 2⟩
    ∧ (⟨1, [1], [(0, ⟨2, some SettleKind.timedOut⟩), (1, ⟨2, none⟩)], 2⟩
          : SemState).permitsAvailable = 1
    ∧ (⟨1, [1], [(0, ⟨2, some SettleKind.timedOut⟩), (1, ⟨2, none⟩)], 2⟩
          : SemState).queueLength = 1
    ∧ lookupItem [(0, ⟨2, some SettleKind.timedOut⟩), (1, ⟨2, none⟩)] 1 = some ⟨2, none⟩
    ∧ acquire ⟨1, [1], [(0, ⟨2, some SettleKind.timedOut⟩), (1, ⟨2, none⟩)], 2⟩ 1
        = .ok (⟨0, [1], [(0, ⟨2, some SettleKind.timedOut⟩), (1, ⟨2, none⟩)], 2⟩, none)
    ∧ (⟨0, [1], [(0, ⟨2, some SettleKind.timedOut⟩), (1, ⟨2, none⟩)], 2⟩
          : SemState).permitsAvailable = 0
    ∧ (⟨0, [1], [(0, ⟨2, some SettleKind.timedOut⟩), (1, ⟨2, none⟩)], 2⟩
          : SemState).queueLength = 1 :=
  ⟨rfl, rfl, rfl, rfl, rfl, rfl, rfl, rfl, rfl⟩

end CSync
